import Mathlib

/-!
Verification development for the `thefox` RPC-bus repository.

The repository ships the bus test (`src/bbt/bus/bus_test.cc`), an HTTP
client declaration and the `cppboot` optimization macros; the bus
implementation itself (In/Out containers, wire codec, Connection,
Server, Client, Result) is declared and exercised by the test but its
sources are not present, so those components are modelled here from the
specification (each such definition is marked `Modelled from the spec:`).
The `CPPBOOT_PREDICT_TRUE`/`CPPBOOT_PREDICT_FALSE` macros are embedded
directly from `src/cppboot/base/optimization.h`.
-/

namespace BbtBus

/-- Modelled from the spec: the Parameter Container (`In` / `Out`,
§3 "ordered mapping key(string) → value(string, ...)").  The bus
implementation is absent from the sources; the container is an ordered
association list from string keys to string values (the string branch of
the tagged-scalar value set, the one the observed test exercises).
Keys are unique within one container (§3 invariant). -/
structure ParamMap where
  entries : List (String × String)
deriving DecidableEq, Repr

/-- Modelled from the spec: the empty container (count 0 is valid, §6). -/
def ParamMap.empty : ParamMap := ⟨[]⟩

/-- Modelled from the spec: `get` — lookup by key; absence of a key is a
defined error (`none`), not a crash (§3 invariant). -/
def ParamMap.get (m : ParamMap) (k : String) : Option String :=
  (m.entries.find? (fun p => p.1 = k)).map (fun p => p.2)

/-- Modelled from the spec: `set` — insert a key/value pair keeping keys
unique: an existing key is overwritten in place, a new key is appended,
preserving insertion order (§3 "ordered mapping", unique keys). -/
def ParamMap.set (m : ParamMap) (k v : String) : ParamMap :=
  if m.entries.any (fun p => p.1 = k) then
    ⟨m.entries.map (fun p => if p.1 = k then (k, v) else p)⟩
  else
    ⟨m.entries ++ [(k, v)]⟩

/-- Modelled from the spec: the error taxonomy of §7. -/
inductive BusError where
  | connectError
  | connectionClosed
  | connectionLost
  | corruptFrame
  | unsupportedValue
  | duplicateMethod
  | methodNotFound
  | timeout
  | handlerError
deriving DecidableEq, Repr

/-- Modelled from the spec: a `Status` is success or one of the §7 errors. -/
inductive Status where
  | ok
  | err (e : BusError)
deriving DecidableEq, Repr

/-- Modelled from the spec: a handler capability `(In) -> Out` (§3 Method
Registration; §9 "tagged function value ... single `Invoke(In) -> Out`").
The C++ signature `(const In&, Out*)` builds the `Out` afresh inside the
handler, so it is a function from the argument container to the result
container. -/
def Handler : Type := ParamMap → ParamMap

/-- Modelled from the spec: the bus-wide method registry, a mapping from
method name to the registered handler (§2 Method Registry; §4.3 "bus-wide
name→Connection index").  Routing forwards frames unchanged, so for the
observable call results the bus is its name→handler table. -/
structure Bus where
  registry : List (String × Handler)

/-- Modelled from the spec: the bus with no registered methods. -/
def Bus.empty : Bus := ⟨[]⟩

/-- Modelled from the spec: `RegisterMethod` (§4.4) — the Client tells the
bus that it now provides `name`; the routing index learns the binding. -/
def Bus.registerMethod (b : Bus) (name : String) (h : Handler) : Bus :=
  ⟨b.registry ++ [(name, h)]⟩

/-- Modelled from the spec: dispatch of one call on the bus (§2 data flow):
look up the provider of the method name; if none is registered the call
fails with `MethodNotFound` (§4.3 edge case), otherwise the handler runs
on the `In` and its `Out` is routed back unchanged. -/
def Bus.dispatch (b : Bus) (name : String) (arg : ParamMap) :
    Except BusError ParamMap :=
  match b.registry.find? (fun p => p.1 = name) with
  | none => .error .methodNotFound
  | some p => .ok (p.2 arg)

/-- Modelled from the spec: blocking `Call(method, In, *Out)` (§4.4):
returns a `Status`; on success `*Out` is filled with the reply payload;
on failure the status carries the error kind and `*Out` is untouched.
The pair returned is (status, final value of `*Out`). -/
def clientCall (b : Bus) (name : String) (arg : ParamMap) (out : ParamMap) :
    Status × ParamMap :=
  match b.dispatch name arg with
  | .ok o => (.ok, o)
  | .error e => (.err e, out)

/-- Modelled from the spec: the `Result` handle of `ACall` after resolution
(§4.5): resolved with an `Out` or failed with an error. -/
def CallResult : Type := Except BusError ParamMap

/-- Modelled from the spec: `ACall(method, In, *Result)` (§4.4); in this
sequential model the returned handle already carries the resolution the
read loop will deliver. -/
def clientACall (b : Bus) (name : String) (arg : ParamMap) : CallResult :=
  b.dispatch name arg

/-- Modelled from the spec: `Result.Wait()` blocks until terminal and
returns the terminal `Status` (§4.5). -/
def CallResult.waitStatus : CallResult → Status
  | .ok _ => .ok
  | .error e => .err e

/-- Modelled from the spec: inspection of the completed `Out` payload
(`result.get(key)` in the test). -/
def CallResult.get (r : CallResult) (k : String) : Option String :=
  match r with
  | .ok o => o.get k
  | .error _ => none

/-- The echo handler of `bus_test.cc` lines 24-27: reads `name` from the
input and sets `greeting` to `"Hello, " + name`. -/
def echoHandler : Handler :=
  fun i => ParamMap.empty.set "greeting" ("Hello, " ++ (i.get "name").getD "")

/-- Modelled from the spec: a pending correlation entry (§3 Call /
Correlation Entry): the method name and the request `In` of an in-flight
call awaiting its reply. -/
structure Entry where
  method : String
  arg : ParamMap
deriving DecidableEq, Repr

/-- Modelled from the spec: the terminal outcome delivered to a call's
waiter: a reply `Out`, an error reply, or `ConnectionLost` on close. -/
inductive Outcome where
  | reply (out : ParamMap)
  | errorReply (e : BusError)
  | connLost
deriving DecidableEq, Repr

/-- Modelled from the spec: Connection liveness state (§3 Connection,
"{Connecting, Open, Closing, Closed}"). -/
inductive ConnState where
  | Connecting
  | Open
  | Closing
  | Closed
deriving DecidableEq, Repr

/-- Modelled from the spec: a Connection (§3, §4.2): liveness state, the
next fresh correlation id, the outstanding correlation table, and the log
of resolutions delivered to waiters (each list element records one
resolution event of one correlation id, in delivery order). -/
structure Conn where
  state : ConnState
  nextId : Nat
  pending : List (Nat × Entry)
  log : List (Nat × Outcome)
deriving DecidableEq, Repr

/-- Modelled from the spec: well-formedness of a Connection's correlation
table: pending ids are pairwise distinct and every pending or logged id
was allocated before `nextId` (a correlation id is unique per Connection
for the lifetime of the call, §3). -/
def Conn.Wf (c : Conn) : Prop :=
  (c.pending.map Prod.fst).Nodup ∧
  (∀ p ∈ c.pending, p.1 < c.nextId) ∧
  (∀ q ∈ c.log, q.1 < c.nextId)

instance (c : Conn) : Decidable c.Wf := by
  unfold Conn.Wf; infer_instance

/-- Modelled from the spec: `IssueCall` (§4.2) — allocate a fresh
correlation id and record a pending entry; returns the id and the updated
Connection. -/
def Conn.issueCall (c : Conn) (e : Entry) : Nat × Conn :=
  (c.nextId,
   { c with nextId := c.nextId + 1, pending := c.pending ++ [(c.nextId, e)] })

/-- Modelled from the spec: resolution of one correlation id (§4.2 read
loop): if the id matches a pending entry, remove the entry and deliver the
outcome to its waiter (appended to the log); if no match exists, drop —
it is not fatal (reply for an already-timed-out or already-resolved
call). -/
def Conn.deliver (c : Conn) (id : Nat) (oc : Outcome) : Conn :=
  if c.pending.any (fun p => p.1 = id) then
    { c with pending := c.pending.filter (fun p => p.1 ≠ id),
             log := c.log ++ [(id, oc)] }
  else c

/-- Modelled from the spec: arrival of a reply frame carrying `id` (§4.2
read loop, reply branch). -/
def Conn.onReply (c : Conn) (id : Nat) (out : ParamMap) : Conn :=
  c.deliver id (.reply out)

/-- Modelled from the spec: `Wait(timeout)` expiring on correlation `id`
(§4.5): the entry is removed so the id can be reused; the waiter itself
returns `Timeout` (a caller-local result, so no log entry — the entry's
eventual resolution is not mutated, a late reply is simply dropped). -/
def Conn.onTimeout (c : Conn) (id : Nat) : Conn :=
  { c with pending := c.pending.filter (fun p => p.1 ≠ id) }

/-- Modelled from the spec: closing a Connection (§3 lifecycle, §4.2
failure semantics): transition to `Closed` and resolve every outstanding
correlation entry with `ConnectionLost`; the pending table empties. -/
def Conn.close (c : Conn) : Conn :=
  { state := .Closed,
    nextId := c.nextId,
    pending := [],
    log := c.log ++ c.pending.map (fun p => (p.1, Outcome.connLost)) }

/-- Modelled from the spec: the events a Connection reacts to — an inbound
reply frame, or any of the close triggers of §3: transport read/write
error, explicit shutdown, peer disconnect. -/
inductive ConnEvent where
  | replyFrame (id : Nat) (out : ParamMap)
  | readError
  | writeError
  | shutdownReq
  | peerDisconnect
deriving DecidableEq, Repr

/-- Modelled from the spec: one step of the Connection under an event
(§4.2 read loop and failure semantics). -/
def Conn.step (c : Conn) : ConnEvent → Conn
  | .replyFrame id out => c.onReply id out
  | .readError => c.close
  | .writeError => c.close
  | .shutdownReq => c.close
  | .peerDisconnect => c.close

/-- Modelled from the spec: one full call on the bus as seen from the
caller's Connection (§2 data flow, §4.3): issue the call (fresh
correlation id, pending entry, request frame), route it on the bus; the
reply — or the immediate `MethodNotFound` error reply for an unregistered
name (§4.3 edge case) — comes back carrying the same correlation id and
resolves the entry.  Returns the Connection after the exchange and the
outcome delivered to the caller. -/
def busRoundTrip (b : Bus) (c : Conn) (m : String) (i : ParamMap) :
    Conn × Outcome :=
  let r := c.issueCall ⟨m, i⟩
  match b.dispatch m i with
  | .ok o => (r.2.deliver r.1 (.reply o), .reply o)
  | .error e => (r.2.deliver r.1 (.errorReply e), .errorReply e)

/-- Modelled from the spec: the resolution already delivered for
correlation id `id` on this Connection, if any (first log entry with that
id). -/
def resolutionFor (c : Conn) (id : Nat) : Option Outcome :=
  (c.log.find? (fun q => q.1 = id)).map (fun q => q.2)

/-- Modelled from the spec: the `Status` a waiter observes from a terminal
outcome (§4.5). -/
def statusOfOutcome : Outcome → Status
  | .reply _ => .ok
  | .errorReply e => .err e
  | .connLost => .err .connectionLost

/-- Modelled from the spec: the waiting loop behind `Wait(timeout)`
(§4.5): each processed event consumes one tick of the budget; waiting
ends as soon as a resolution for `id` is delivered, or when the budget is
exhausted.  Returns (resolution if any, budget left, Connection reached). -/
def waitCore (id : Nat) : Conn → Nat → List ConnEvent →
    Option Outcome × Nat × Conn
  | c, 0, _ => (none, 0, c)
  | c, _ + 1, [] => (none, 0, c)
  | c, fuel + 1, ev :: rest =>
    let c2 := c.step ev
    match resolutionFor c2 id with
    | some oc => (some oc, fuel, c2)
    | none => waitCore id c2 fuel rest

/-- Modelled from the spec: `Wait(timeout)` on the `Result` of correlation
id `id` (§4.5): if a resolution arrives within the budget its status is
returned; otherwise the wait fails with `Timeout` after the full budget
and the correlation entry is removed so the id can be reused.  Returns
(status, ticks elapsed, Connection after the wait). -/
def waitOnResult (c : Conn) (id : Nat) (timeout : Nat)
    (events : List ConnEvent) : Status × Nat × Conn :=
  match waitCore id c timeout events with
  | (some oc, fuelLeft, c2) => (statusOfOutcome oc, timeout - fuelLeft, c2)
  | (none, _, c2) => (.err .timeout, timeout, c2.onTimeout id)

/-- Modelled from the spec: a Server (§4.3): whether it is still
accepting, and its registry of active Connections. -/
structure Server where
  accepting : Bool
  conns : List Conn
deriving DecidableEq, Repr

/-- Modelled from the spec: `Server::Shutdown` (§4.3): stop accepting and
close all active Connections, triggering their pending-entry
resolution. -/
def Server.shutdown (s : Server) : Server :=
  ⟨false, s.conns.map Conn.close⟩

/-- Modelled from the spec: the Connection-owning side of a Client
(§4.4); a Client owns one Connection to the Server. -/
structure Client where
  conn : Conn
deriving DecidableEq, Repr

/-- Modelled from the spec: `Client::Shutdown` (§4.4): closes the owned
Connection; any of this Client's own still-pending calls resolve with
`ConnectionLost`. -/
def Client.shutdown (cl : Client) : Client :=
  ⟨cl.conn.close⟩

/-! ### Wire codec (modelled from the spec, §4.1 and §6) -/

/-- Modelled from the spec: big-endian encoding of `n` on `w` bytes
(most significant byte first). -/
def be : Nat → Nat → List Nat
  | 0, _ => []
  | w + 1, n => be w (n / 256) ++ [n % 256]

/-- Modelled from the spec: the number read back from a big-endian byte
list. -/
def fromBE (l : List Nat) : Nat :=
  l.foldl (fun a b => a * 256 + b) 0

/-- Modelled from the spec: the byte sequence of a string key or value
(one byte per character; the container claims range over byte-valued
characters, `StrOk` below). -/
def strBytes (s : String) : List Nat :=
  s.data.map Char.toNat

/-- Modelled from the spec: the string read back from its bytes. -/
def bytesToStr (l : List Nat) : String :=
  ⟨l.map Char.ofNat⟩

/-- Modelled from the spec: read exactly `w` bytes from the stream;
fails (decoder: truncated frame) if fewer remain. -/
def readN (w : Nat) (l : List Nat) : Option (List Nat × List Nat) :=
  if w ≤ l.length then some (l.take w, l.drop w) else none

/-- Modelled from the spec: read a `w`-byte big-endian number. -/
def readNum (w : Nat) (l : List Nat) : Option (Nat × List Nat) :=
  (readN w l).map (fun p => (fromBE p.1, p.2))

/-- Modelled from the spec: the value-type tag byte of a string value
(§6 "value-type tag(1B)"; the spec fixes only that the tag is one byte,
the tag numbering is the model's). -/
def strTag : Nat := 0

/-- Modelled from the spec: one serialized container entry (§6):
key length(2B) + key bytes, value-type tag(1B), value bytes — string
values carry a 2-byte length before their bytes (the spec leaves the
value-byte layout to the tag). -/
def encodeEntry (kv : String × String) : List Nat :=
  be 2 (strBytes kv.1).length ++ strBytes kv.1 ++ [strTag] ++
    be 2 (strBytes kv.2).length ++ strBytes kv.2

/-- Modelled from the spec: a serialized In/Out container (§6):
count(4B) of entries, then the entries in insertion order; count 0 is
valid. -/
def encodeMap (m : ParamMap) : List Nat :=
  be 4 m.entries.length ++ m.entries.flatMap encodeEntry

/-- Modelled from the spec: decode one container entry, returning it and
the remaining bytes; fails on truncation or an unknown value tag. -/
def decodeEntry (l : List Nat) : Option ((String × String) × List Nat) :=
  (readNum 2 l).bind (fun p1 =>
    (readN p1.1 p1.2).bind (fun p2 =>
      (readNum 1 p2.2).bind (fun p3 =>
        if p3.1 = strTag then
          (readNum 2 p3.2).bind (fun p4 =>
            (readN p4.1 p4.2).bind (fun p5 =>
              some ((bytesToStr p2.1, bytesToStr p5.1), p5.2)))
        else none)))

/-- Modelled from the spec: decode `n` consecutive container entries. -/
def decodeEntries : Nat → List Nat → Option (List (String × String) × List Nat)
  | 0, l => some ([], l)
  | n + 1, l =>
    (decodeEntry l).bind (fun p =>
      (decodeEntries n p.2).bind (fun q => some (p.1 :: q.1, q.2)))

/-- Modelled from the spec: decode a serialized In/Out container: 4-byte
count, then that many entries consuming the whole input. -/
def decodeMap (l : List Nat) : Option ParamMap :=
  (readNum 4 l).bind (fun p =>
    (decodeEntries p.1 p.2).bind (fun q =>
      if q.2 = [] then some ⟨q.1⟩ else none))

/-- Modelled from the spec: the frame kind byte (§6): 0=Request,
1=Reply. -/
inductive FrameKind where
  | request
  | reply
deriving DecidableEq, Repr

/-- Modelled from the spec: the kind byte of a frame. -/
def FrameKind.byte : FrameKind → Nat
  | .request => 0
  | .reply => 1

/-- Modelled from the spec: assemble a wire frame (§6): 4-byte big-endian
total frame length (counting the length field itself), 1-byte frame
kind, 8-byte correlation id, then the kind-specific payload. -/
def mkFrame (k : FrameKind) (cid : Nat) (payload : List Nat) : List Nat :=
  let rest := k.byte :: (be 8 cid ++ payload)
  be 4 (4 + rest.length) ++ rest

/-- Modelled from the spec: the payload of a request frame (§6):
method-name length(2B) + name + serialized In. -/
def requestPayload (m : String) (i : ParamMap) : List Nat :=
  be 2 (strBytes m).length ++ strBytes m ++ encodeMap i

/-- Modelled from the spec: the payload of a reply frame (§6): status
code(2B) + serialized Out. -/
def replyPayload (st : Nat) (o : ParamMap) : List Nat :=
  be 2 st ++ encodeMap o

/-- A string whose characters are byte-valued and whose byte length fits
the 2-byte length field of the wire format. -/
def StrOk (s : String) : Prop :=
  (∀ ch ∈ s.data, ch.toNat < 256) ∧ s.data.length < 65536

instance (s : String) : Decidable (StrOk s) := by
  unfold StrOk; infer_instance

/-- A container all of whose keys and values satisfy `StrOk` and whose
entry count fits the 4-byte count field. -/
def MapOk (m : ParamMap) : Prop :=
  (∀ kv ∈ m.entries, StrOk kv.1 ∧ StrOk kv.2) ∧
    m.entries.length < 4294967296

instance (m : ParamMap) : Decidable (MapOk m) := by
  unfold MapOk; infer_instance

end BbtBus

namespace CppbootBase

/-- The value semantics of GCC/Clang `__builtin_expect(exp, c)`: it
returns the value of `exp`; the second argument is only a prediction
hint (embedded from the builtin's documented semantics, as used in
`src/cppboot/base/optimization.h`). -/
def builtinExpect (exp _hint : Bool) : Bool := exp

/-- `CPPBOOT_PREDICT_TRUE(x)` on the `__builtin_expect` branch
(`optimization.h` line 162): `(__builtin_expect(false || (x), true))`. -/
def predictTrueBuiltin (x : Bool) : Bool :=
  builtinExpect (false || x) true

/-- `CPPBOOT_PREDICT_FALSE(x)` on the `__builtin_expect` branch
(`optimization.h` line 161): `(__builtin_expect(false || (x), false))`. -/
def predictFalseBuiltin (x : Bool) : Bool :=
  builtinExpect (false || x) false

/-- `CPPBOOT_PREDICT_TRUE(x)` on the fallback branch (`optimization.h`
line 165): `(x)`. -/
def predictTruePlain (x : Bool) : Bool := x

/-- `CPPBOOT_PREDICT_FALSE(x)` on the fallback branch (`optimization.h`
line 164): `(x)`. -/
def predictFalsePlain (x : Bool) : Bool := x

end CppbootBase

namespace BbtBus

/-- **C1.** If one Client registers `echo` (handler producing
`{greeting: "Hello, " + in.name}`) and a different Client on the same bus
calls it with `{name: "BBT"}`, then both the blocking `Call` and the async
`ACall` followed by `Wait` succeed and deliver the handler's `Out`
unchanged in content: `{greeting: "Hello, BBT"}`. -/
theorem c1_echo_round_trip :
    (clientCall (Bus.empty.registerMethod "echo" echoHandler) "echo"
      (ParamMap.empty.set "name" "BBT") ParamMap.empty).1 = .ok ∧
    ((clientCall (Bus.empty.registerMethod "echo" echoHandler) "echo"
      (ParamMap.empty.set "name" "BBT") ParamMap.empty).2.get "greeting"
      = some "Hello, BBT") ∧
    (clientACall (Bus.empty.registerMethod "echo" echoHandler) "echo"
      (ParamMap.empty.set "name" "BBT")).waitStatus = .ok ∧
    (clientACall (Bus.empty.registerMethod "echo" echoHandler) "echo"
      (ParamMap.empty.set "name" "BBT")).get "greeting"
      = some "Hello, BBT" := by
  refine ⟨rfl, ?_, rfl, ?_⟩ <;> decide

/-- **C2.** A reply carrying correlation id `id` resolves exactly the
pending entry with that id: the entry leaves the pending table and its
outcome is delivered, every other pending entry is untouched, and a given
correlation id is resolved by exactly one reply — a second reply with the
same id is dropped without any effect. -/
theorem c2_reply_resolves_exactly_its_entry
    (c : Conn) (_hwf : c.Wf) (id : Nat) (e : Entry)
    (hmem : (id, e) ∈ c.pending) (out : ParamMap) :
    ((id, e) ∉ (c.onReply id out).pending) ∧
    (∀ id' e', id' ≠ id →
      ((id', e') ∈ (c.onReply id out).pending ↔ (id', e') ∈ c.pending)) ∧
    ((c.onReply id out).log = c.log ++ [(id, Outcome.reply out)]) ∧
    (∀ out2, (c.onReply id out).onReply id out2 = c.onReply id out) := by
  have hany : c.pending.any (fun p => p.1 = id) = true := by
    exact List.any_eq_true.mpr ⟨(id, e), hmem, by simp⟩
  have hrw : c.onReply id out =
      { c with pending := c.pending.filter (fun p => p.1 ≠ id),
               log := c.log ++ [(id, Outcome.reply out)] } := by
    simp [Conn.onReply, Conn.deliver, hany]
  refine ⟨?_, ?_, ?_, ?_⟩
  · rw [hrw]
    intro hin
    have := List.of_mem_filter hin
    simp at this
  · intro id' e' hne
    rw [hrw]
    constructor
    · intro hin; exact List.mem_of_mem_filter hin
    · intro hin
      exact List.mem_filter.mpr ⟨hin, by simp [hne]⟩
  · rw [hrw]
  · intro out2
    rw [hrw]
    have hnone : (c.pending.filter (fun p => p.1 ≠ id)).any
        (fun p => p.1 = id) = false := by
      simp only [List.any_eq_false]
      intro p hp
      have := List.of_mem_filter hp
      simpa using this
    simp [Conn.onReply, Conn.deliver, hnone]

/-- Witness for C2 on a concrete Connection with two pending calls. -/
theorem c2_witness :
    (Conn.Wf ⟨.Open, 2, [(0, ⟨"a", ⟨[]⟩⟩), (1, ⟨"b", ⟨[]⟩⟩)], []⟩) ∧
    ((0, (⟨"a", ⟨[]⟩⟩ : Entry)) ∈
      (⟨.Open, 2, [(0, ⟨"a", ⟨[]⟩⟩), (1, ⟨"b", ⟨[]⟩⟩)], []⟩ : Conn).pending) ∧
    (((⟨.Open, 2, [(0, ⟨"a", ⟨[]⟩⟩), (1, ⟨"b", ⟨[]⟩⟩)], []⟩ : Conn).onReply 0
        ⟨[("k", "v")]⟩).log = [] ++ [(0, Outcome.reply ⟨[("k", "v")]⟩)]) :=
  ⟨by decide, by decide,
   (c2_reply_resolves_exactly_its_entry
     ⟨.Open, 2, [(0, ⟨"a", ⟨[]⟩⟩), (1, ⟨"b", ⟨[]⟩⟩)], []⟩ (by decide)
     0 ⟨"a", ⟨[]⟩⟩ (by decide) ⟨[("k", "v")]⟩).2.2.1⟩

/-- **C4.** Every close trigger (transport read error, write error,
explicit shutdown, peer disconnect) transitions the Connection to
`Closed`, and every correlation entry still outstanding is resolved with
`ConnectionLost`; no pending entry is left after the close. -/
theorem c4_close_resolves_all_pending
    (c : Conn) (ev : ConnEvent)
    (h : ev = .readError ∨ ev = .writeError ∨
         ev = .shutdownReq ∨ ev = .peerDisconnect) :
    ((c.step ev).state = .Closed) ∧
    ((c.step ev).pending = []) ∧
    (∀ p ∈ c.pending, (p.1, Outcome.connLost) ∈ (c.step ev).log) := by
  have hstep : c.step ev = c.close := by
    rcases h with h | h | h | h <;> subst h <;> rfl
  rw [hstep]
  refine ⟨rfl, rfl, ?_⟩
  intro p hp
  simp only [Conn.close, List.mem_append, List.mem_map]
  exact Or.inr ⟨p, hp, rfl⟩

/-- Resolution on a Connection none of whose pending ids is `id` is a
drop: the Connection is unchanged. -/
theorem deliver_of_not_pending (c : Conn) (id : Nat) (oc : Outcome)
    (h : c.pending.any (fun p => p.1 = id) = false) :
    c.deliver id oc = c := by
  simp [Conn.deliver, h]

/-- After filtering id `id` out of a pending table, no entry with that id
remains. -/
theorem filter_ne_any_eq_false (l : List (Nat × Entry)) (id : Nat) :
    (l.filter (fun p => p.1 ≠ id)).any (fun p => p.1 = id) = false := by
  simp only [List.any_eq_false]
  intro p hp
  have := List.of_mem_filter hp
  simpa using this

/-- Witness for C4: shutting down a Connection with one pending entry. -/
theorem c4_witness :
    (((⟨.Open, 1, [(0, ⟨"m", ⟨[]⟩⟩)], []⟩ : Conn).step .shutdownReq).state
       = .Closed) ∧
    (((⟨.Open, 1, [(0, ⟨"m", ⟨[]⟩⟩)], []⟩ : Conn).step .shutdownReq).pending
       = []) ∧
    ((0, Outcome.connLost) ∈
      ((⟨.Open, 1, [(0, ⟨"m", ⟨[]⟩⟩)], []⟩ : Conn).step .shutdownReq).log) := by
  have h := c4_close_resolves_all_pending
    ⟨.Open, 1, [(0, ⟨"m", ⟨[]⟩⟩)], []⟩ .shutdownReq (by simp)
  exact ⟨h.1, h.2.1, h.2.2 (0, ⟨"m", ⟨[]⟩⟩) (by decide)⟩

/-- **C5.** A call for a method name with no registered provider fails
immediately with `MethodNotFound`, delivered as an error reply to the
caller; afterwards the pending table is exactly what it was before the
call — no pending correlation entry is left behind. -/
theorem c5_unregistered_method_not_found
    (b : Bus) (c : Conn) (m : String) (i : ParamMap)
    (hwf : c.Wf) (hnone : b.registry.find? (fun p => p.1 = m) = none) :
    ((busRoundTrip b c m i).2 = .errorReply .methodNotFound) ∧
    ((busRoundTrip b c m i).1.pending = c.pending) ∧
    ((busRoundTrip b c m i).1.log
      = c.log ++ [(c.nextId, Outcome.errorReply .methodNotFound)]) := by
  have hdisp : b.dispatch m i = .error .methodNotFound := by
    simp [Bus.dispatch, hnone]
  have hany : ((c.pending ++ [(c.nextId, (⟨m, i⟩ : Entry))]).any
      (fun p => p.1 = c.nextId)) = true := by
    refine List.any_eq_true.mpr ⟨(c.nextId, ⟨m, i⟩), ?_, by simp⟩
    simp
  refine ⟨?_, ?_, ?_⟩
  · simp [busRoundTrip, hdisp, Conn.issueCall, Conn.deliver, hany]
  · simp [busRoundTrip, hdisp, Conn.issueCall, Conn.deliver, hany]
    intro a b hab
    have := hwf.2.1 (a, b) hab
    omega
  · simp [busRoundTrip, hdisp, Conn.issueCall, Conn.deliver, hany]

/-- Witness for C5: calling `nope` on an empty bus from a Connection with
one unrelated pending call. -/
theorem c5_witness :
    (Conn.Wf ⟨.Open, 1, [(0, ⟨"x", ⟨[]⟩⟩)], []⟩) ∧
    ((busRoundTrip Bus.empty ⟨.Open, 1, [(0, ⟨"x", ⟨[]⟩⟩)], []⟩ "nope"
        ⟨[]⟩).2 = .errorReply .methodNotFound) ∧
    ((busRoundTrip Bus.empty ⟨.Open, 1, [(0, ⟨"x", ⟨[]⟩⟩)], []⟩ "nope"
        ⟨[]⟩).1.pending = [(0, ⟨"x", ⟨[]⟩⟩)]) :=
  ⟨by decide,
   (c5_unregistered_method_not_found Bus.empty
     ⟨.Open, 1, [(0, ⟨"x", ⟨[]⟩⟩)], []⟩ "nope" ⟨[]⟩ (by decide) rfl).1,
   (c5_unregistered_method_not_found Bus.empty
     ⟨.Open, 1, [(0, ⟨"x", ⟨[]⟩⟩)], []⟩ "nope" ⟨[]⟩ (by decide) rfl).2.1⟩

/-- A reply frame for a different correlation id cannot create a
resolution for `id`. -/
theorem resolutionFor_step_other (c : Conn) (id id' : Nat) (out : ParamMap)
    (hne : id' ≠ id) (h : resolutionFor c id = none) :
    resolutionFor (c.step (.replyFrame id' out)) id = none := by
  show resolutionFor (c.onReply id' out) id = none
  have hfind : c.log.find? (fun q => q.1 = id) = none := by
    unfold resolutionFor at h
    cases hf : c.log.find? (fun q => q.1 = id) with
    | none => rfl
    | some q => rw [hf] at h; simp at h
  unfold Conn.onReply Conn.deliver
  by_cases hc : c.pending.any (fun p => p.1 = id') = true
  · simp only [hc, if_true]
    unfold resolutionFor
    simp only [List.find?_append, hfind]
    simp [hne]
  · simp only [Bool.not_eq_true] at hc
    simp [hc, h]

/-- If every event during the wait is a reply for some other correlation
id, no resolution for `id` ever appears. -/
theorem waitCore_never_resolves (id : Nat) :
    ∀ (events : List ConnEvent) (fuel : Nat) (c : Conn),
      (∀ ev ∈ events, ∃ id' o, ev = .replyFrame id' o ∧ id' ≠ id) →
      resolutionFor c id = none →
      (waitCore id c fuel events).1 = none := by
  intro events
  induction events with
  | nil =>
    intro fuel c _ _
    cases fuel <;> simp [waitCore]
  | cons ev rest ih =>
    intro fuel c hev hres
    cases fuel with
    | zero => simp [waitCore]
    | succ n =>
      obtain ⟨id', o, hevEq, hne⟩ := hev ev (by simp)
      subst hevEq
      have hres2 := resolutionFor_step_other c id id' o hne hres
      simp only [waitCore, hres2]
      exact ih n _ (fun e he => hev e (by simp [he])) hres2

/-- **C6.** `Wait(timeout)` on a `Result` whose handler never replies
(during the wait only replies for other correlation ids arrive) returns
`Timeout` after the full timeout budget (elapsed ≥ timeout); the
correlation entry is removed on timeout, and a late reply arriving
afterwards is dropped without any effect on the Connection — it resolves
no other (including future) call's entry. -/
theorem c6_wait_timeout_discards_late_reply
    (c : Conn) (id : Nat) (e : Entry) (timeout : Nat)
    (events : List ConnEvent) (late : ParamMap)
    (_hpend : (id, e) ∈ c.pending)
    (hres : resolutionFor c id = none)
    (hev : ∀ ev ∈ events, ∃ id' o, ev = .replyFrame id' o ∧ id' ≠ id) :
    ((waitOnResult c id timeout events).1 = .err .timeout) ∧
    (timeout ≤ (waitOnResult c id timeout events).2.1) ∧
    (∀ e', (id, e') ∉ (waitOnResult c id timeout events).2.2.pending) ∧
    ((waitOnResult c id timeout events).2.2.onReply id late
      = (waitOnResult c id timeout events).2.2) := by
  have hnone := waitCore_never_resolves id events timeout c hev hres
  rcases hcore : waitCore id c timeout events with ⟨fst, fuelLeft, c2⟩
  rw [hcore] at hnone
  simp only at hnone
  subst hnone
  have hw : waitOnResult c id timeout events
      = (.err .timeout, timeout, c2.onTimeout id) := by
    simp [waitOnResult, hcore]
  rw [hw]
  refine ⟨rfl, Nat.le_refl _, ?_, ?_⟩
  · intro e' hin
    have := List.of_mem_filter hin
    simp at this
  · exact deliver_of_not_pending _ id _ (filter_ne_any_eq_false c2.pending id)

/-- Witness for C6 on a concrete Connection whose only inbound traffic is
a reply for another id. -/
theorem c6_witness :
    ((0, (⟨"m", ⟨[]⟩⟩ : Entry)) ∈
      (⟨.Open, 1, [(0, ⟨"m", ⟨[]⟩⟩)], []⟩ : Conn).pending) ∧
    (resolutionFor ⟨.Open, 1, [(0, ⟨"m", ⟨[]⟩⟩)], []⟩ 0 = none) ∧
    ((waitOnResult ⟨.Open, 1, [(0, ⟨"m", ⟨[]⟩⟩)], []⟩ 0 2
        [.replyFrame 7 ⟨[]⟩]).1 = .err .timeout) :=
  ⟨by decide, by decide,
   (c6_wait_timeout_discards_late_reply
     ⟨.Open, 1, [(0, ⟨"m", ⟨[]⟩⟩)], []⟩ 0 ⟨"m", ⟨[]⟩⟩ 2
     [.replyFrame 7 ⟨[]⟩] ⟨[]⟩ (by decide) (by decide)
     (by
       intro ev hev
       simp only [List.mem_singleton] at hev
       exact ⟨7, ⟨[]⟩, hev, by decide⟩)).1⟩

/-- **C8.** Blocking `Call(method, In, *Out)` returns a `Status`; when the
dispatch succeeds the status is success and `*Out` is filled with the
reply payload; when it fails the status carries the error kind and `*Out`
is left exactly as it was before the call. -/
theorem c8_call_status_out_contract
    (b : Bus) (m : String) (i out : ParamMap) :
    (∀ o, b.dispatch m i = .ok o → clientCall b m i out = (.ok, o)) ∧
    (∀ e, b.dispatch m i = .error e →
      clientCall b m i out = (.err e, out)) := by
  constructor <;> intro x h <;> simp [clientCall, h]

/-- Witness for C8: the success branch on the echo bus and the failure
branch on the empty bus, with a non-empty initial `*Out` left untouched. -/
theorem c8_witness :
    ((Bus.empty.registerMethod "echo" echoHandler).dispatch "echo"
      (ParamMap.empty.set "name" "BBT")
      = .ok (ParamMap.empty.set "greeting" "Hello, BBT")) ∧
    (clientCall (Bus.empty.registerMethod "echo" echoHandler) "echo"
      (ParamMap.empty.set "name" "BBT") ⟨[("old", "v")]⟩
      = (.ok, ParamMap.empty.set "greeting" "Hello, BBT")) ∧
    (Bus.empty.dispatch "nope" ⟨[]⟩ = .error .methodNotFound) ∧
    (clientCall Bus.empty "nope" ⟨[]⟩ ⟨[("old", "v")]⟩
      = (.err .methodNotFound, ⟨[("old", "v")]⟩)) :=
  ⟨rfl,
   (c8_call_status_out_contract (Bus.empty.registerMethod "echo" echoHandler)
     "echo" (ParamMap.empty.set "name" "BBT") ⟨[("old", "v")]⟩).1
     (ParamMap.empty.set "greeting" "Hello, BBT") rfl,
   rfl,
   (c8_call_status_out_contract Bus.empty "nope" ⟨[]⟩ ⟨[("old", "v")]⟩).2
     .methodNotFound rfl⟩

/-- Closing an already-closed Connection changes nothing. -/
theorem close_close (c : Conn) : c.close.close = c.close := by
  simp [Conn.close]

/-- **C9.** `Server::Shutdown` stops accepting and closes every active
Connection, resolving each of its pending correlation entries with
`ConnectionLost`, and is idempotent; `Client::Shutdown` is likewise
idempotent and resolves that Client's own still-pending entries with
`ConnectionLost`. -/
theorem c9_shutdown_idempotent (s : Server) (cl : Client) :
    (s.shutdown.accepting = false) ∧
    (∀ c ∈ s.conns, c.close ∈ s.shutdown.conns ∧ c.close.state = .Closed ∧
      ∀ p ∈ c.pending, (p.1, Outcome.connLost) ∈ c.close.log) ∧
    (s.shutdown.shutdown = s.shutdown) ∧
    (cl.shutdown.shutdown = cl.shutdown) ∧
    (cl.shutdown.conn.pending = [] ∧
      ∀ p ∈ cl.conn.pending, (p.1, Outcome.connLost) ∈ cl.shutdown.conn.log) := by
  refine ⟨rfl, ?_, ?_, ?_, ?_, ?_⟩
  · intro c hc
    refine ⟨List.mem_map_of_mem _ hc, rfl, ?_⟩
    intro p hp
    simp only [Conn.close, List.mem_append, List.mem_map]
    exact Or.inr ⟨p, hp, rfl⟩
  · simp only [Server.shutdown, List.map_map]
    congr 1
    refine List.map_congr_left ?_
    intro x _
    exact close_close x
  · simp [Client.shutdown, close_close]
  · rfl
  · intro p hp
    simp only [Client.shutdown, Conn.close, List.mem_append, List.mem_map]
    exact Or.inr ⟨p, hp, rfl⟩

/-- Witness for C9 on a concrete Server with one Connection holding one
pending call, and a Client over the same Connection. -/
theorem c9_witness :
    ((Server.shutdown (Server.shutdown
        ⟨true, [⟨.Open, 1, [(0, ⟨"m", ⟨[]⟩⟩)], []⟩]⟩))
      = Server.shutdown ⟨true, [⟨.Open, 1, [(0, ⟨"m", ⟨[]⟩⟩)], []⟩]⟩) ∧
    ((0, Outcome.connLost) ∈
      (Client.shutdown ⟨⟨.Open, 1, [(0, ⟨"m", ⟨[]⟩⟩)], []⟩⟩).conn.log) :=
  ⟨(c9_shutdown_idempotent ⟨true, [⟨.Open, 1, [(0, ⟨"m", ⟨[]⟩⟩)], []⟩]⟩
      ⟨⟨.Open, 1, [(0, ⟨"m", ⟨[]⟩⟩)], []⟩⟩).2.2.1,
   (c9_shutdown_idempotent ⟨true, [⟨.Open, 1, [(0, ⟨"m", ⟨[]⟩⟩)], []⟩]⟩
      ⟨⟨.Open, 1, [(0, ⟨"m", ⟨[]⟩⟩)], []⟩⟩).2.2.2.2.2 (0, ⟨"m", ⟨[]⟩⟩)
      (by decide)⟩

/-- A `w`-byte big-endian encoding has exactly `w` bytes. -/
theorem be_length (w : Nat) : ∀ n, (be w n).length = w := by
  induction w with
  | zero => intro n; rfl
  | succ w ih => intro n; simp [be, ih]

/-- Appending one byte shifts the big-endian value by one base-256
digit. -/
theorem fromBE_append_byte (l : List Nat) (b : Nat) :
    fromBE (l ++ [b]) = fromBE l * 256 + b := by
  simp [fromBE, List.foldl_append]

/-- Reading back a `w`-byte big-endian encoding recovers any number that
fits in `w` bytes. -/
theorem fromBE_be (w : Nat) : ∀ n, n < 256 ^ w → fromBE (be w n) = n := by
  induction w with
  | zero =>
    intro n h
    simp [be, fromBE]
    omega
  | succ w ih =>
    intro n h
    have hdiv : n / 256 < 256 ^ w := by
      refine Nat.div_lt_of_lt_mul ?_
      calc n < 256 ^ (w + 1) := h
        _ = 256 * 256 ^ w := by ring
    rw [be, fromBE_append_byte, ih (n / 256) hdiv]
    omega

/-- Reading exactly the length of the first block of a concatenation
returns that block and the remainder. -/
theorem readN_append (l1 l2 : List Nat) :
    readN l1.length (l1 ++ l2) = some (l1, l2) := by
  simp [readN, List.take_left, List.drop_left]

/-- Reading a `w`-byte big-endian number off the front of a stream. -/
theorem readNum_be (w n : Nat) (rest : List Nat) (h : n < 256 ^ w) :
    readNum w (be w n ++ rest) = some (n, rest) := by
  have hl := readN_append (be w n) rest
  rw [be_length] at hl
  unfold readNum
  rw [hl]
  simp [fromBE_be w n h]

/-- Byte serialization of a string followed by deserialization is the
identity. -/
theorem bytesToStr_strBytes (s : String) : bytesToStr (strBytes s) = s := by
  cases s with
  | mk data =>
    simp only [bytesToStr, strBytes, List.map_map]
    have : List.map (Char.ofNat ∘ Char.toNat) data = List.map id data :=
      List.map_congr_left (fun c _ => Char.ofNat_toNat c)
    rw [this, List.map_id]

/-- Decoding an encoded entry off the front of a stream returns the entry
and the remainder, for any wire-representable key and value. -/
theorem decodeEntry_encodeEntry (k v : String) (rest : List Nat)
    (hk : StrOk k) (hv : StrOk v) :
    decodeEntry (encodeEntry (k, v) ++ rest) = some ((k, v), rest) := by
  have hklen : (strBytes k).length < 256 ^ 2 := by
    have := hk.2
    simp only [strBytes, List.length_map]
    omega
  have hvlen : (strBytes v).length < 256 ^ 2 := by
    have := hv.2
    simp only [strBytes, List.length_map]
    omega
  have h1 : readNum 2 (be 2 (strBytes k).length ++ (strBytes k ++
      ([strTag] ++ (be 2 (strBytes v).length ++ (strBytes v ++ rest)))))
      = some ((strBytes k).length, strBytes k ++
          ([strTag] ++ (be 2 (strBytes v).length ++ (strBytes v ++ rest)))) :=
    readNum_be 2 _ _ hklen
  have h2 : readN (strBytes k).length (strBytes k ++
      ([strTag] ++ (be 2 (strBytes v).length ++ (strBytes v ++ rest))))
      = some (strBytes k,
          [strTag] ++ (be 2 (strBytes v).length ++ (strBytes v ++ rest))) :=
    readN_append _ _
  have h3 : readNum 1 ([strTag] ++ (be 2 (strBytes v).length ++
      (strBytes v ++ rest)))
      = some (0, be 2 (strBytes v).length ++ (strBytes v ++ rest)) := by
    simp [readNum, readN, strTag, fromBE]
  have h4 : readNum 2 (be 2 (strBytes v).length ++ (strBytes v ++ rest))
      = some ((strBytes v).length, strBytes v ++ rest) :=
    readNum_be 2 _ _ hvlen
  have h5 : readN (strBytes v).length (strBytes v ++ rest)
      = some (strBytes v, rest) := readN_append _ _
  simp only [strTag] at h1 h2 h3
  simp only [encodeEntry, List.append_assoc, decodeEntry, strTag, h1,
    Option.some_bind, h2, h3, h4, h5, bytesToStr_strBytes]
  simp

/-- Decoding a concatenation of encoded entries returns the entry list
and the remainder. -/
theorem decodeEntries_encode (entries : List (String × String)) :
    ∀ (rest : List Nat),
      (∀ kv ∈ entries, StrOk kv.1 ∧ StrOk kv.2) →
      decodeEntries entries.length (entries.flatMap encodeEntry ++ rest)
        = some (entries, rest) := by
  induction entries with
  | nil => intro rest _; simp [decodeEntries]
  | cons kv tl ih =>
    intro rest hok
    obtain ⟨k, v⟩ := kv
    have hk := (hok (k, v) (by simp)).1
    have hv := (hok (k, v) (by simp)).2
    simp only [List.length_cons, decodeEntries, List.flatMap_cons,
      List.append_assoc]
    rw [decodeEntry_encodeEntry k v _ hk hv]
    simp only [Option.some_bind]
    rw [ih rest (fun kv hkv => hok kv (by simp [hkv]))]
    simp

/-- **C3.** For every `In` container with unique, wire-representable keys
(and values), decoding the encoding yields a container equal to the
original: as an unordered key set (the decoded entries are a permutation
of the originals — here the identity permutation) and, on re-iteration,
in the original insertion order (the decoded entry list is exactly the
original one). -/
theorem c3_encode_decode_round_trip (m : ParamMap)
    (_hnodup : (m.entries.map Prod.fst).Nodup) (hok : MapOk m) :
    (decodeMap (encodeMap m) = some m) ∧
    (∀ m', decodeMap (encodeMap m) = some m' →
      m'.entries.Perm m.entries ∧ m'.entries = m.entries) := by
  have hcnt : readNum 4 (be 4 m.entries.length ++ m.entries.flatMap encodeEntry)
      = some (m.entries.length, m.entries.flatMap encodeEntry) := by
    refine readNum_be 4 _ _ ?_
    have := hok.2
    norm_num
    omega
  have hents := decodeEntries_encode m.entries [] hok.1
  rw [List.append_nil] at hents
  have h1 : decodeMap (encodeMap m) = some m := by
    simp only [decodeMap, encodeMap, hcnt, Option.some_bind, hents]
    simp
  refine ⟨h1, ?_⟩
  intro m' hm'
  rw [h1] at hm'
  cases hm'
  exact ⟨List.Perm.refl _, rfl⟩

/-- Witness for C3 on the container `{name: BBT, flag: y}`. -/
theorem c3_witness :
    ((ParamMap.entries ⟨[("name", "BBT"), ("flag", "y")]⟩).map Prod.fst).Nodup ∧
    MapOk ⟨[("name", "BBT"), ("flag", "y")]⟩ ∧
    decodeMap (encodeMap ⟨[("name", "BBT"), ("flag", "y")]⟩)
      = some ⟨[("name", "BBT"), ("flag", "y")]⟩ :=
  ⟨by decide, by decide,
   (c3_encode_decode_round_trip ⟨[("name", "BBT"), ("flag", "y")]⟩
     (by decide) (by decide)).1⟩

/-- **C7.** Every encoded wire frame is the 4-byte big-endian total frame
length, then the 1-byte frame kind (0=Request, 1=Reply), then the 8-byte
correlation id, then the kind-specific payload: the first four bytes read
back as the whole frame's length, byte 4 is the kind byte, bytes 5–12
read back as the correlation id, and the rest is the payload.  A
serialized container starts with the 4-byte entry count (`encodeMap`
definitionally emits `count(4B)` then the
`{key length(2B)+key, tag(1B), value}` entries), and the empty container
(count 0) encodes and decodes validly. -/
theorem c7_wire_frame_layout (k : FrameKind) (cid : Nat) (payload : List Nat)
    (hcid : cid < 256 ^ 8) (hlen : 13 + payload.length < 256 ^ 4) :
    (mkFrame k cid payload
      = be 4 (13 + payload.length) ++ [k.byte] ++ be 8 cid ++ payload) ∧
    (fromBE ((mkFrame k cid payload).take 4)
      = (mkFrame k cid payload).length) ∧
    (((mkFrame k cid payload).drop 4).take 1 = [k.byte]) ∧
    (FrameKind.request.byte = 0 ∧ FrameKind.reply.byte = 1) ∧
    (fromBE (((mkFrame k cid payload).drop 5).take 8) = cid) ∧
    ((mkFrame k cid payload).drop 13 = payload) ∧
    (encodeMap ParamMap.empty = be 4 0) ∧
    (decodeMap (encodeMap ParamMap.empty) = some ParamMap.empty) := by
  have hrest : (FrameKind.byte k :: (be 8 cid ++ payload)).length
      = 9 + payload.length := by
    simp [be_length]
    omega
  have harith : 4 + (9 + payload.length) = 13 + payload.length := by omega
  have hframe : mkFrame k cid payload
      = be 4 (13 + payload.length)
          ++ (FrameKind.byte k :: (be 8 cid ++ payload)) := by
    show be 4 (4 + (FrameKind.byte k :: (be 8 cid ++ payload)).length)
        ++ (FrameKind.byte k :: (be 8 cid ++ payload)) = _
    rw [hrest, harith]
  have hlen4 : (be 4 (13 + payload.length)).length = 4 := be_length 4 _
  have htake4 : (mkFrame k cid payload).take 4
      = be 4 (13 + payload.length) := by
    rw [hframe]; exact List.take_left' hlen4
  have hlenF : (mkFrame k cid payload).length = 13 + payload.length := by
    rw [hframe]
    simp [be_length]
    omega
  have hdrop4 : (mkFrame k cid payload).drop 4
      = FrameKind.byte k :: (be 8 cid ++ payload) := by
    rw [hframe]; exact List.drop_left' hlen4
  have hdrop5 : (mkFrame k cid payload).drop 5 = be 8 cid ++ payload := by
    have h := List.drop_drop 1 4 (mkFrame k cid payload)
    rw [hdrop4] at h
    simpa using h.symm
  have hdrop13 : (mkFrame k cid payload).drop 13 = payload := by
    have h := List.drop_drop 8 5 (mkFrame k cid payload)
    rw [hdrop5] at h
    have h8 : (be 8 cid ++ payload).drop 8 = payload :=
      List.drop_left' (be_length 8 cid)
    rw [h8] at h
    simpa using h.symm
  refine ⟨?_, ?_, ?_, ⟨rfl, rfl⟩, ?_, hdrop13, by decide, by decide⟩
  · rw [hframe]
    simp
  · rw [htake4, hlenF, fromBE_be 4 _ hlen]
  · rw [hdrop4]
    simp
  · rw [hdrop5, List.take_left' (be_length 8 cid), fromBE_be 8 cid hcid]

/-- Witness for C7 on a concrete reply frame with a 3-byte payload. -/
theorem c7_witness :
    ((5 : Nat) < 256 ^ 8) ∧ ((13 + ([1, 2, 3] : List Nat).length < 256 ^ 4)) ∧
    (fromBE ((mkFrame .reply 5 [1, 2, 3]).take 4)
      = (mkFrame .reply 5 [1, 2, 3]).length) ∧
    (fromBE (((mkFrame .reply 5 [1, 2, 3]).drop 5).take 8) = 5) :=
  ⟨by norm_num, by norm_num,
   (c7_wire_frame_layout .reply 5 [1, 2, 3] (by norm_num) (by norm_num)).2.1,
   (c7_wire_frame_layout .reply 5 [1, 2, 3] (by norm_num) (by norm_num)).2.2.2.2.1⟩

end BbtBus

namespace CppbootBase

/-- **C10.** `CPPBOOT_PREDICT_TRUE(x)` and `CPPBOOT_PREDICT_FALSE(x)`
evaluate to the same truth value as `x` itself on both compiler branches
of the macro definitions: the branch-hint annotation is semantically the
identity. -/
theorem c10_predict_macros_identity (x : Bool) :
    predictTrueBuiltin x = x ∧ predictFalseBuiltin x = x ∧
    predictTruePlain x = x ∧ predictFalsePlain x = x := by
  cases x <;> exact ⟨rfl, rfl, rfl, rfl⟩

end CppbootBase
